import Mathlib

/-!
Shallow embedding of the nouga case-study application (src/codebases/V1 - nouga-main).

Modelled source files:
- src/db/schema.ts                        (tables and foreign keys)
- src/app/api/webhooks/marker/route.ts    (webhook handler POST)
- src/actions/create-case-study.ts        (createCaseStudy, processFileWithMarker)
- src/actions/case-study.ts               (getAllCaseStudies, getCaseStudyById,
                                           saveCaseStudy, deleteCaseStudy,
                                           getCaseStudySummary)
- src/unnamed/part_003                    (createOnePager)

Conventions of the embedding:
- External collaborators (HTTP fetch, Supabase storage upload, Gemini) are
  oracles passed as parameters: each call site receives the outcome the
  environment would have produced.
- `uuid defaultRandom` primary keys are modelled by a deterministic fresh-id
  counter carried in the database state.
- `created_at` / `updated_at` timestamp columns are not modelled; no claim
  mentions them.
- JavaScript string truthiness (`!s` is true for undefined and "") is modelled
  by `truthy` on `Option String`.
-/

namespace CaseStudyApp

/-- JS truthiness of an optional string field: `undefined` and `""` are falsy. -/
def truthy : Option String → Bool
  | none => false
  | some s => !(s == "")

/-- `String.includes` of JavaScript: `containsSub s pat` is true iff `pat`
occurs as a contiguous substring of `s`. -/
def hasSubList : List Char → List Char → Bool
  | [], pat => pat.isEmpty
  | l@(_ :: t), pat => pat.isPrefixOf l || hasSubList t pat

def containsSub (s pat : String) : Bool :=
  hasSubList s.toList pat.toList

/-- Row of `case_studies` (schema.ts). -/
structure CaseStudyRow where
  id : String
  user_id : String
  title : String
  description : Option String
  client : Option String
  industry : Option String
deriving DecidableEq, Repr

/-- Response of the Marker submit API, as used by create-case-study.ts
(fields `request_id`, `success`, `error` are the ones the source reads). -/
structure MarkerSubmitResponse where
  request_id : String
  success : Bool
  error : String
deriving DecidableEq, Repr

/-- The two shapes of JSON the app stores in the `metadata` jsonb column:
create-case-study.ts stores the whole Marker submit response, the webhook
stores `result.metadata` (a string record). -/
inductive JsonVal where
  | submitResponse (r : MarkerSubmitResponse)
  | metadataRecord (m : List (String × String))
deriving DecidableEq, Repr

/-- Row of `case_study_files` (schema.ts). The `status` column is text
(the TS enum cast in route.ts is compile-time only), hence `String` here. -/
structure FileRow where
  id : String
  case_study_id : String
  request_id : String
  file_url : String
  markdown : Option String
  metadata : Option JsonVal
  status : String
  error : Option String
deriving DecidableEq, Repr

/-- Row of `case_study_images` (schema.ts). -/
structure ImageRow where
  id : String
  file_id : String
  image_url : String
deriving DecidableEq, Repr

/-- Row of `case_study_summaries` (schema.ts). -/
structure SummaryRow where
  id : String
  case_study_id : String
  summary : String
deriving DecidableEq, Repr

/-- Database state: the four tables the claims are about, plus a counter
supplying the `defaultRandom()` primary keys deterministically. -/
structure DB where
  caseStudies : List CaseStudyRow := []
  files : List FileRow := []
  images : List ImageRow := []
  summaries : List SummaryRow := []
  nextId : Nat := 0
deriving DecidableEq, Repr

/-- Draw a fresh primary key from the id supply. -/
def freshId (db : DB) : String × DB :=
  ("row" ++ toString db.nextId, { db with nextId := db.nextId + 1 })

/-! ## Webhook handler (route.ts) -/

/-- Parsed JSON body of the webhook POST request. -/
structure WebhookBody where
  request_id : Option String := none
  request_check_url : Option String := none
  webhook_secret : Option String := none
deriving DecidableEq, Repr

/-- `MarkerResponse` of route.ts: the payload fetched from the check URL.
`images` is the `Record<string, string>` in `Object.entries` order. -/
structure MarkerResponse where
  output_format : String := "markdown"
  markdown : String := ""
  status : String := "complete"
  success : Bool := true
  images : List (String × String) := []
  metadata : List (String × String) := []
  error : String := ""
  page_count : Nat := 0
deriving DecidableEq, Repr

/-- `validateWebhook` of route.ts: throws on falsy or mismatched secret,
then on falsy `request_id` / `request_check_url`. `cfg` is the configured
`MARKER_WEBHOOK_SECRET` environment value (possibly unset). -/
def validateWebhook (cfg : Option String) (b : WebhookBody) :
    Except String (String × String) :=
  if truthy b.webhook_secret = false ∨ b.webhook_secret ≠ cfg then
    .error "Invalid webhook secret"
  else if truthy b.request_id = false ∨ truthy b.request_check_url = false then
    .error "Missing required fields"
  else
    .ok (b.request_id.getD "", b.request_check_url.getD "")

/-- The secret check of `validateWebhook` as a Bool: the supplied secret is
truthy and equals the configured one. -/
def secretOk (cfg : Option String) (b : WebhookBody) : Bool :=
  truthy b.webhook_secret && (b.webhook_secret == cfg)

/-- The required-fields check of `validateWebhook` as a Bool. -/
def fieldsOk (b : WebhookBody) : Bool :=
  truthy b.request_id && truthy b.request_check_url

/-- Outcome of the `fetch(requestCheckUrl)` call, supplied by the environment. -/
inductive FetchOutcome where
  | notOk (statusText : String)
  | ok (result : MarkerResponse)
deriving DecidableEq, Repr

/-- `fetchMarkerResults` of route.ts: error on a non-ok response, error with
`result.error || 'Processing failed'` when the result is unsuccessful. -/
def fetchMarkerResults : FetchOutcome → Except String MarkerResponse
  | .notOk st => .error ("Failed to fetch results: " ++ st)
  | .ok r =>
    if r.success then .ok r
    else .error (if r.error == "" then "Processing failed" else r.error)

/-- The column values `updateCaseStudyFile` sets on a matching file row. -/
def appliedResult (r : MarkerResponse) (f : FileRow) : FileRow :=
  { f with
    status := r.status
    markdown := some r.markdown
    metadata := some (.metadataRecord r.metadata)
    error := some r.error }

/-- `updateCaseStudyFile` of route.ts: UPDATE ... WHERE request_id = ...
RETURNING; throws `Case study file not found` when no row matched, else
returns the first updated row. -/
def updateCaseStudyFile (requestId : String) (r : MarkerResponse) (db : DB) :
    Except String (FileRow × DB) :=
  let updated := db.files.map fun f =>
    if f.request_id == requestId then appliedResult r f else f
  match updated.filter (fun f => f.request_id == requestId) with
  | [] => .error "Case study file not found"
  | f :: _ => .ok (f, { db with files := updated })

/-- Storage path used for an extracted image in `processImages`. -/
def imagePath (userId fileId filename : String) : String :=
  userId ++ "/case_studies/" ++ fileId ++ "/images/" ++ filename

/-- `getPublicUrl` of Supabase storage: deterministic in the path. -/
def mkPublicUrl (path : String) : String :=
  "https://storage.example/files/" ++ path

/-- Body of the per-image loop of `processImages`: upload the decoded image
(`uploadOk` is the environment's answer for the upload call); on upload error
log and continue, on success insert an Image row with the public URL. -/
def imgStep (uploadOk : String → Bool) (userId fileId : String)
    (acc : DB) (entry : String × String) : DB :=
  let path := imagePath userId fileId entry.fst
  if uploadOk path then
    let fresh := freshId acc
    { fresh.snd with
      images := fresh.snd.images ++ [⟨fresh.fst, fileId, mkPublicUrl path⟩] }
  else acc

/-- `processImages` of route.ts: return early when the result has no images;
look up the parent case study (throwing `Case study not found` when absent);
then iterate the images, skipping failed uploads per item. -/
def processImages (uploadOk : String → Bool) (csf : FileRow)
    (r : MarkerResponse) (db : DB) : Except String DB :=
  if r.images.isEmpty then .ok db
  else
    match db.caseStudies.find? (fun c => c.id == csf.case_study_id) with
    | none => .error "Case study not found"
    | some cs => .ok (r.images.foldl (imgStep uploadOk cs.user_id csf.id) db)

/-- The try-block of the webhook POST handler, with the database state
threaded through: each database statement commits on its own (there is no
transaction spanning the steps), so an error after `updateCaseStudyFile`
leaves that update in place. -/
def runWebhook (cfg : Option String) (b : WebhookBody) (fo : FetchOutcome)
    (uploadOk : String → Bool) (db : DB) : Except String Unit × DB :=
  match validateWebhook cfg b with
  | .error e => (.error e, db)
  | .ok rid_url =>
    match fetchMarkerResults fo with
    | .error e => (.error e, db)
    | .ok r =>
      match updateCaseStudyFile rid_url.fst r db with
      | .error e => (.error e, db)
      | .ok csf_db =>
        match processImages uploadOk csf_db.fst r csf_db.snd with
        | .error e => (.error e, csf_db.snd)
        | .ok db2 => (.ok (), db2)

/-- JSON body of the webhook HTTP response. -/
inductive RespBody where
  | message (m : String)
  | errBody (e : String)
deriving DecidableEq, Repr

structure HttpResponse where
  status : Nat
  body : RespBody
deriving DecidableEq, Repr

/-- The catch-block of the POST handler chooses the status by substring
match on the error message. -/
def classifyStatus (e : String) : Nat :=
  if containsSub e "Invalid webhook secret" then 401
  else if containsSub e "Missing required fields" then 400
  else 500

/-- `POST` of route.ts: run the webhook steps; 200 with a message on
success, otherwise the catch block maps the error message to a status. -/
def POST (cfg : Option String) (b : WebhookBody) (fo : FetchOutcome)
    (uploadOk : String → Bool) (db : DB) : HttpResponse × DB :=
  match runWebhook cfg b fo uploadOk db with
  | (.ok _, db2) =>
    ({ status := 200, body := .message "Webhook processed successfully" }, db2)
  | (.error e, db2) =>
    ({ status := classifyStatus e, body := .errBody e }, db2)

/-! ## File ingestion (create-case-study.ts) -/

/-- A downloaded file: `{ blob, name }` as returned by `downloadFileFromUrl`
(the blob's bytes are opaque to the app). -/
structure FileBlob where
  name : String
  content : String
deriving DecidableEq, Repr

/-- Value of a multipart form entry built by `processFileWithMarker`. -/
inductive FormValue where
  | fileEntry (blob : FileBlob)
  | str (s : String)
deriving DecidableEq, Repr

/-- The multipart form `processFileWithMarker` appends, in order. -/
def markerFormData (file : FileBlob) : List (String × FormValue) :=
  [("file", .fileEntry file),
   ("langs", .str "English"),
   ("force_ocr", .str "false"),
   ("paginate", .str "false"),
   ("output_format", .str "markdown"),
   ("use_llm", .str "false"),
   ("strip_existing_ocr", .str "false"),
   ("disable_image_extraction", .str "false")]

/-- Outcome of the fetch to the Marker submit endpoint. -/
inductive SubmitOutcome where
  | notOk (statusText : String)
  | ok (result : MarkerSubmitResponse)
deriving DecidableEq, Repr

/-- `processFileWithMarker` of create-case-study.ts: returns the form it
sent together with the call's result; throws `Marker API error: ...` on a
non-ok response or an unsuccessful result. -/
def processFileWithMarker (so : SubmitOutcome) (file : FileBlob) :
    List (String × FormValue) × Except String MarkerSubmitResponse :=
  (markerFormData file,
    match so with
    | .notOk st => .error ("Marker API error: " ++ st)
    | .ok r =>
      if r.success then .ok r else .error ("Marker API error: " ++ r.error))

/-- `Except.isOk` as a plain Bool. -/
def exceptOk {α : Type} : Except String α → Bool
  | .ok _ => true
  | .error _ => false

/-- Whether the download-and-submit pipeline for one URL succeeds, given the
environment's download and submit outcomes. -/
def submissionOk (downloadO : String → Except String FileBlob)
    (submitO : String → SubmitOutcome) (url : String) : Bool :=
  match downloadO url with
  | .error _ => false
  | .ok file => exceptOk (processFileWithMarker (submitO url) file).snd

/-- One task of the `Promise.allSettled` batch in `createCaseStudy`:
download the file, submit it to Marker, and insert a `processing` File row;
any failure is caught and logged, leaving the database untouched. -/
def ingestFile (downloadO : String → Except String FileBlob)
    (submitO : String → SubmitOutcome) (csId : String)
    (acc : DB) (url : String) : DB :=
  match downloadO url with
  | .error _ => acc
  | .ok file =>
    match (processFileWithMarker (submitO url) file).snd with
    | .error _ => acc
    | .ok res =>
      let fresh := freshId acc
      { fresh.snd with
        files := fresh.snd.files ++
          [{ id := fresh.fst
             case_study_id := csId
             request_id := res.request_id
             file_url := url
             markdown := none
             metadata := some (.submitResponse res)
             status := "processing"
             error := none }] }

/-- Input record of `createCaseStudy`. -/
structure CreateCaseStudyInput where
  title : String
  client : Option String
  industry : Option String
  fileUrls : List String
deriving DecidableEq, Repr

/-- `createCaseStudy` of create-case-study.ts: require an authenticated
user, insert one CaseStudy row, then run the per-URL ingestion tasks
(joined with `Promise.allSettled`, here linearized), and return the new
CaseStudy. -/
def createCaseStudy (authUid : Option String) (input : CreateCaseStudyInput)
    (downloadO : String → Except String FileBlob)
    (submitO : String → SubmitOutcome) (db : DB) :
    Except String CaseStudyRow × DB :=
  match authUid with
  | none => (.error "User not authenticated", db)
  | some uid =>
    let fresh := freshId db
    let newCS : CaseStudyRow :=
      { id := fresh.fst, user_id := uid, title := input.title,
        description := none, client := input.client,
        industry := input.industry }
    let db1 := { fresh.snd with caseStudies := fresh.snd.caseStudies ++ [newCS] }
    (.ok newCS, input.fileUrls.foldl (ingestFile downloadO submitO newCS.id) db1)

/-! ## Case-study actions (case-study.ts, part_003) -/

/-- `getAllCaseStudies`: auth-guarded list of the caller's case studies
(the `created_at` ordering is not modelled, timestamps being absent). -/
def getAllCaseStudies (authUid : Option String) (db : DB) :
    Except String (List CaseStudyRow) :=
  match authUid with
  | none => .error "User not authenticated"
  | some uid => .ok (db.caseStudies.filter (fun c => c.user_id == uid))

/-- A File row together with its grouped images, as assembled by
`getCaseStudyById`. -/
structure FileWithImages where
  file : FileRow
  images : List ImageRow
deriving DecidableEq, Repr

/-- The nested `CaseStudyWithFiles` object `getCaseStudyById` returns. -/
structure CaseStudyWithFiles where
  caseStudy : CaseStudyRow
  files : List FileWithImages
  summaries : List SummaryRow
deriving DecidableEq, Repr

/-- `getCaseStudyById` of case-study.ts. The source performs no `auth()`
call and no ownership check; the ambient authentication context is ignored.
The `Map`-based grouping of images by `file_id` is order-preserving, hence
the per-file filter. -/
def getCaseStudyById (authUid : Option String) (id : String) (db : DB) :
    Except String CaseStudyWithFiles :=
  match db.caseStudies.find? (fun c => c.id == id) with
  | none => .error "Case study not found"
  | some cs =>
    let files := db.files.filter (fun f => f.case_study_id == id)
    let summaries := db.summaries.filter (fun s => s.case_study_id == id)
    if files.isEmpty then
      .ok { caseStudy := cs, files := [], summaries := summaries }
    else
      let fileIds := files.map (fun f => f.id)
      let images := db.images.filter (fun im => fileIds.contains im.file_id)
      .ok { caseStudy := cs
            files := files.map fun f =>
              { file := f, images := images.filter (fun im => im.file_id == f.id) }
            summaries := summaries }

/-- `CaseStudyData`, the editor payload saved by `saveCaseStudy` (only the
`summary` field is persisted). -/
structure CaseStudyData where
  title : String := ""
  challenge : String := ""
  approach : String := ""
  solution : String := ""
  outcomes : String := ""
  summary : String := ""
  key_points : List String := []
deriving DecidableEq, Repr

/-- `saveCaseStudy`: auth-guarded update of the description column. -/
def saveCaseStudy (authUid : Option String) (id : String)
    (content : CaseStudyData) (db : DB) : Except String Bool × DB :=
  match authUid with
  | none => (.error "User not authenticated", db)
  | some _ =>
    (.ok true,
     { db with
       caseStudies := db.caseStudies.map fun c =>
         if c.id == id then { c with description := some content.summary } else c })

/-- Postgres enforcement of `DELETE FROM case_studies WHERE id = ...` under
the foreign keys declared in src/db/schema.ts: `case_study_files.case_study_id`
and `case_study_summaries.case_study_id` reference `case_studies` with
`ON DELETE CASCADE`; `case_study_images.file_id` references
`case_study_files` with no delete action (NO ACTION), so the statement
fails — and nothing is deleted — whenever an image still references one of
the files the cascade would remove. -/
def cascadeDeleteCaseStudy (id : String) (db : DB) : Except String DB :=
  let deadFiles := db.files.filter (fun f => f.case_study_id == id)
  if db.images.any (fun im => deadFiles.any (fun f => f.id == im.file_id)) then
    .error "foreign key violation"
  else
    .ok { db with
      caseStudies := db.caseStudies.filter (fun c => !(c.id == id))
      files := db.files.filter (fun f => !(f.case_study_id == id))
      summaries := db.summaries.filter (fun s => !(s.case_study_id == id)) }

/-- `deleteCaseStudy` of case-study.ts: auth guard, then the delete
statement; a database error is caught and rethrown as
`Failed to delete case study`. -/
def deleteCaseStudy (authUid : Option String) (id : String) (db : DB) :
    Except String Bool × DB :=
  match authUid with
  | none => (.error "User not authenticated", db)
  | some _ =>
    match cascadeDeleteCaseStudy id db with
    | .error _ => (.error "Failed to delete case study", db)
    | .ok db2 => (.ok true, db2)

/-- `getCaseStudySummary`: auth-guarded lookup of the first summary row of
a case study. -/
def getCaseStudySummary (authUid : Option String) (id : String) (db : DB) :
    Except String SummaryRow :=
  match authUid with
  | none => .error "User not authenticated"
  | some _ =>
    match db.summaries.find? (fun s => s.case_study_id == id) with
    | none => .error "Case study summary not found"
    | some s => .ok s

/-- `createOnePager` of src/unnamed/part_003: auth guard, Gemini text
completion (an oracle here), then insert of a Summary row. -/
def createOnePager (authUid : Option String) (geminiO : Except String String)
    (fileContent caseStudyId : String) (db : DB) :
    Except String SummaryRow × DB :=
  match authUid with
  | none => (.error "User not authenticated", db)
  | some _ =>
    match geminiO with
    | .error e => (.error e, db)
    | .ok text =>
      let fresh := freshId db
      let row : SummaryRow :=
        { id := fresh.fst, case_study_id := caseStudyId, summary := text }
      (.ok row, { fresh.snd with summaries := fresh.snd.summaries ++ [row] })

/-! ## Helper lemmas -/

theorem validateWebhook_secret_error (cfg : Option String) (b : WebhookBody)
    (h : secretOk cfg b = false) :
    validateWebhook cfg b = .error "Invalid webhook secret" := by
  unfold validateWebhook
  rw [if_pos]
  cases ht : truthy b.webhook_secret with
  | false => exact Or.inl rfl
  | true =>
    right
    intro hc
    rw [hc] at ht
    simp [secretOk, hc, ht] at h

theorem validateWebhook_fields_error (cfg : Option String) (b : WebhookBody)
    (hs : secretOk cfg b = true) (hf : fieldsOk b = false) :
    validateWebhook cfg b = .error "Missing required fields" := by
  simp only [secretOk, Bool.and_eq_true, beq_iff_eq] at hs
  unfold validateWebhook
  rw [if_neg, if_pos]
  · cases h1 : truthy b.request_id with
    | false => exact Or.inl rfl
    | true =>
      right
      simp only [fieldsOk, h1, Bool.true_and] at hf
      exact hf
  · rw [not_or]
    exact ⟨by simp [hs.1], by simp [hs.2]⟩

theorem fetchMarkerResults_ok_inv (fo : FetchOutcome) (r : MarkerResponse)
    (h : fetchMarkerResults fo = .ok r) : fo = .ok r ∧ r.success = true := by
  cases fo with
  | notOk st => simp [fetchMarkerResults] at h
  | ok r0 =>
    by_cases hs : r0.success
    · simp [fetchMarkerResults, hs] at h
      rw [← h]
      exact ⟨rfl, hs⟩
    · simp [fetchMarkerResults, hs] at h

theorem appliedResult_request_id (r : MarkerResponse) (f : FileRow) :
    (appliedResult r f).request_id = f.request_id := rfl

theorem appliedResult_idem (r : MarkerResponse) (f : FileRow) :
    appliedResult r (appliedResult r f) = appliedResult r f := rfl

/-- Filtering the updated file list by the request id is the same as
updating the filtered list: the update preserves `request_id`. -/
theorem filter_map_update (r : MarkerResponse) (rid : String) (l : List FileRow) :
    (l.map fun f => if f.request_id == rid then appliedResult r f else f).filter
        (fun f => f.request_id == rid) =
      (l.filter (fun f => f.request_id == rid)).map (appliedResult r) := by
  induction l with
  | nil => rfl
  | cons f t ih =>
    by_cases h : f.request_id = rid
    · simp only [List.map_cons, List.filter_cons, h, appliedResult_request_id,
        beq_self_eq_true, if_true, if_pos]
      exact congrArg _ (by simpa using ih)
    · simp only [List.map_cons, List.filter_cons, beq_iff_eq, h, if_false,
        ite_false, appliedResult_request_id]
      simpa [h] using ih

/-- Updating the file list twice with the same result is the same as
updating it once. -/
theorem update_map_idem (r : MarkerResponse) (rid : String) (l : List FileRow) :
    ((l.map fun f => if f.request_id == rid then appliedResult r f else f).map
      fun f => if f.request_id == rid then appliedResult r f else f) =
    (l.map fun f => if f.request_id == rid then appliedResult r f else f) := by
  induction l with
  | nil => rfl
  | cons f t ih =>
    by_cases h : f.request_id = rid
    · simp only [List.map_cons, h, beq_self_eq_true, if_true, if_pos,
        appliedResult_request_id, appliedResult_idem]
      exact congrArg _ (by simpa using ih)
    · simp only [List.map_cons, beq_iff_eq, h, if_false, ite_false]
      exact congrArg _ (by simpa [h] using ih)

/-- Characterization of a successful `updateCaseStudyFile`. -/
theorem updateCaseStudyFile_ok_inv (rid : String) (r : MarkerResponse) (db : DB)
    (res : FileRow × DB) (h : updateCaseStudyFile rid r db = .ok res) :
    res.snd.files =
      (db.files.map fun f => if f.request_id == rid then appliedResult r f else f)
    ∧ res.snd.caseStudies = db.caseStudies ∧ res.snd.images = db.images
    ∧ res.snd.summaries = db.summaries ∧ res.snd.nextId = db.nextId
    ∧ res.fst ∈ (db.files.filter (fun f => f.request_id == rid)).map (appliedResult r) := by
  simp only [updateCaseStudyFile] at h
  rw [filter_map_update] at h
  cases hm : (db.files.filter (fun f => f.request_id == rid)).map (appliedResult r) with
  | nil => rw [hm] at h; exact absurd h (by simp)
  | cons a t =>
    rw [hm] at h
    simp only [Except.ok.injEq] at h
    rw [← h]
    refine ⟨rfl, rfl, rfl, rfl, rfl, ?_⟩
    exact List.mem_cons_self a t

/-- `updateCaseStudyFile` fails exactly when no file row carries the
request id. -/
theorem updateCaseStudyFile_error_inv (rid : String) (r : MarkerResponse) (db : DB)
    (e : String) (h : updateCaseStudyFile rid r db = .error e) :
    e = "Case study file not found"
    ∧ db.files.filter (fun f => f.request_id == rid) = [] := by
  simp only [updateCaseStudyFile] at h
  rw [filter_map_update] at h
  cases hm : (db.files.filter (fun f => f.request_id == rid)).map (appliedResult r) with
  | nil =>
    rw [hm] at h
    simp only [Except.error.injEq] at h
    exact ⟨h.symm, by simpa using hm⟩
  | cons a t => rw [hm] at h; exact absurd h (by simp)

/-- When the single file row carrying the request id is known, the update
returns that row with the result applied. -/
theorem updateCaseStudyFile_single (rid : String) (r : MarkerResponse) (db : DB)
    (f0 : FileRow)
    (hrow : db.files.filter (fun f => f.request_id == rid) = [f0]) :
    updateCaseStudyFile rid r db =
      .ok (appliedResult r f0,
        { db with files :=
            db.files.map fun f => if f.request_id == rid then appliedResult r f else f }) := by
  simp only [updateCaseStudyFile]
  rw [filter_map_update, hrow]
  rfl

/-- Effect of the per-image loop: it appends one Image row per image whose
upload succeeds (and nothing else), each row pointing at the processed file
and carrying the public URL of its storage path. -/
theorem imgFold_spec (up : String → Bool) (uid fid : String)
    (entries : List (String × String)) :
    ∀ db : DB, ∃ suffix : List ImageRow,
      (entries.foldl (imgStep up uid fid) db).images = db.images ++ suffix ∧
      (entries.foldl (imgStep up uid fid) db).files = db.files ∧
      (entries.foldl (imgStep up uid fid) db).caseStudies = db.caseStudies ∧
      (entries.foldl (imgStep up uid fid) db).summaries = db.summaries ∧
      suffix.length = entries.countP (fun e => up (imagePath uid fid e.fst)) ∧
      ∀ im ∈ suffix, im.file_id = fid ∧
        ∃ e ∈ entries, up (imagePath uid fid e.fst) = true ∧
          im.image_url = mkPublicUrl (imagePath uid fid e.fst) := by
  induction entries with
  | nil => exact fun db => ⟨[], by simp⟩
  | cons a t ih =>
    intro db
    rw [List.foldl_cons]
    cases hu : up (imagePath uid fid a.fst) with
    | false =>
      have hstep : imgStep up uid fid db a = db := by
        simp [imgStep, hu]
      rw [hstep]
      obtain ⟨suffix, h1, h2, h3, h4, h5, h6⟩ := ih db
      refine ⟨suffix, h1, h2, h3, h4, ?_, ?_⟩
      · rw [h5, List.countP_cons, hu]
        simp
      · intro im him
        obtain ⟨hf, e, he, hue, hurl⟩ := h6 im him
        exact ⟨hf, e, List.mem_cons_of_mem a he, hue, hurl⟩
    | true =>
      have hstep : imgStep up uid fid db a =
          { db with
            nextId := db.nextId + 1
            images := db.images ++
              [⟨"row" ++ toString db.nextId, fid,
                mkPublicUrl (imagePath uid fid a.fst)⟩] } := by
        simp [imgStep, hu, freshId]
      rw [hstep]
      obtain ⟨suffix, h1, h2, h3, h4, h5, h6⟩ :=
        ih { db with
              nextId := db.nextId + 1
              images := db.images ++
                [⟨"row" ++ toString db.nextId, fid,
                  mkPublicUrl (imagePath uid fid a.fst)⟩] }
      refine ⟨⟨"row" ++ toString db.nextId, fid,
          mkPublicUrl (imagePath uid fid a.fst)⟩ :: suffix, ?_, h2, h3, h4, ?_, ?_⟩
      · rw [h1]
        simp
      · rw [List.length_cons, h5, List.countP_cons, hu]
        simp
      · intro im him
        rcases List.mem_cons.mp him with him | him
        · exact ⟨by rw [him], a, List.mem_cons_self a t, hu, by rw [him]⟩
        · obtain ⟨hf, e, he, hue, hurl⟩ := h6 im him
          exact ⟨hf, e, List.mem_cons_of_mem a he, hue, hurl⟩

/-- A failing `processImages` can only fail on the parent lookup. -/
theorem processImages_error_inv (up : String → Bool) (csf : FileRow)
    (r : MarkerResponse) (db : DB) (e : String)
    (h : processImages up csf r db = .error e) :
    e = "Case study not found"
    ∧ db.caseStudies.find? (fun c => c.id == csf.case_study_id) = none := by
  unfold processImages at h
  by_cases hi : r.images.isEmpty
  · rw [if_pos hi] at h
    exact absurd h (by simp)
  · rw [if_neg hi] at h
    cases hf : db.caseStudies.find? (fun c => c.id == csf.case_study_id) with
    | none =>
      rw [hf] at h
      simp only [Except.error.injEq] at h
      exact ⟨h.symm, rfl⟩
    | some cs => rw [hf] at h; exact absurd h (by simp)

/-- A successful `processImages` only appends image rows: the other tables
are untouched. -/
theorem processImages_ok_tables (up : String → Bool) (csf : FileRow)
    (r : MarkerResponse) (db db2 : DB)
    (h : processImages up csf r db = .ok db2) :
    db2.files = db.files ∧ db2.caseStudies = db.caseStudies
    ∧ db2.summaries = db.summaries := by
  unfold processImages at h
  by_cases hi : r.images.isEmpty
  · rw [if_pos hi] at h
    simp only [Except.ok.injEq] at h
    rw [← h]
    exact ⟨rfl, rfl, rfl⟩
  · rw [if_neg hi] at h
    cases hf : db.caseStudies.find? (fun c => c.id == csf.case_study_id) with
    | none => rw [hf] at h; exact absurd h (by simp)
    | some cs =>
      rw [hf] at h
      simp only [Except.ok.injEq] at h
      obtain ⟨suffix, _, h2, h3, h4, _, _⟩ := imgFold_spec up cs.user_id csf.id r.images db
      rw [← h]
      exact ⟨h2, h3, h4⟩

/-- Full characterization of a successful `processImages` when the parent
case study is present. -/
theorem processImages_ok_inv (up : String → Bool) (csf : FileRow)
    (r : MarkerResponse) (db db2 : DB) (cs : CaseStudyRow)
    (hcs : db.caseStudies.find? (fun c => c.id == csf.case_study_id) = some cs)
    (h : processImages up csf r db = .ok db2) :
    ∃ suffix : List ImageRow,
      db2.images = db.images ++ suffix ∧
      suffix.length = r.images.countP (fun e => up (imagePath cs.user_id csf.id e.fst)) ∧
      ∀ im ∈ suffix, im.file_id = csf.id ∧
        ∃ e ∈ r.images, up (imagePath cs.user_id csf.id e.fst) = true ∧
          im.image_url = mkPublicUrl (imagePath cs.user_id csf.id e.fst) := by
  unfold processImages at h
  by_cases hi : r.images.isEmpty
  · rw [if_pos hi] at h
    simp only [Except.ok.injEq] at h
    have he : r.images = [] := by
      cases hr : r.images with
      | nil => rfl
      | cons a t => rw [hr] at hi; simp at hi
    refine ⟨[], by rw [← h]; simp, by rw [he]; rfl, by simp⟩
  · rw [if_neg hi, hcs] at h
    simp only [Except.ok.injEq] at h
    obtain ⟨suffix, h1, _, _, _, h5, h6⟩ := imgFold_spec up cs.user_id csf.id r.images db
    exact ⟨suffix, by rw [← h]; exact h1, h5.symm ▸ rfl, h6⟩

/-- Effect of the per-URL ingestion batch: it appends one `processing` File
row per URL whose download-and-submit pipeline succeeds (and nothing else),
and a failing URL leaves the rows of the other URLs in place. -/
theorem ingestFold_spec (dl : String → Except String FileBlob)
    (sb : String → SubmitOutcome) (csId : String) (urls : List String) :
    ∀ db : DB, ∃ suffix : List FileRow,
      (urls.foldl (ingestFile dl sb csId) db).files = db.files ++ suffix ∧
      (urls.foldl (ingestFile dl sb csId) db).caseStudies = db.caseStudies ∧
      (urls.foldl (ingestFile dl sb csId) db).images = db.images ∧
      (urls.foldl (ingestFile dl sb csId) db).summaries = db.summaries ∧
      suffix.length = urls.countP (submissionOk dl sb) ∧
      (∀ f ∈ suffix, f.case_study_id = csId ∧ f.status = "processing") ∧
      (∀ url ∈ urls, submissionOk dl sb url = true →
        ∃ f ∈ suffix, f.file_url = url ∧ f.case_study_id = csId ∧
          f.status = "processing") := by
  induction urls with
  | nil => exact fun db => ⟨[], by simp⟩
  | cons u t ih =>
    intro db
    rw [List.foldl_cons]
    cases hd : dl u with
    | error err =>
      have hok : submissionOk dl sb u = false := by simp [submissionOk, hd]
      have hstep : ingestFile dl sb csId db u = db := by simp [ingestFile, hd]
      rw [hstep]
      obtain ⟨suffix, h1, h2, h3, h4, h5, h6, h7⟩ := ih db
      refine ⟨suffix, h1, h2, h3, h4, ?_, h6, ?_⟩
      · rw [h5, List.countP_cons, hok]
        simp
      · intro url hmem hsub
        rcases List.mem_cons.mp hmem with rfl | hmem
        · rw [hok] at hsub
          exact absurd hsub (by simp)
        · exact h7 url hmem hsub
    | ok file =>
      cases hs : (processFileWithMarker (sb u) file).snd with
      | error err =>
        have hok : submissionOk dl sb u = false := by
          simp [submissionOk, hd, hs, exceptOk]
        have hstep : ingestFile dl sb csId db u = db := by
          simp [ingestFile, hd, hs]
        rw [hstep]
        obtain ⟨suffix, h1, h2, h3, h4, h5, h6, h7⟩ := ih db
        refine ⟨suffix, h1, h2, h3, h4, ?_, h6, ?_⟩
        · rw [h5, List.countP_cons, hok]
          simp
        · intro url hmem hsub
          rcases List.mem_cons.mp hmem with rfl | hmem
          · rw [hok] at hsub
            exact absurd hsub (by simp)
          · exact h7 url hmem hsub
      | ok res =>
        have hok : submissionOk dl sb u = true := by
          simp [submissionOk, hd, hs, exceptOk]
        have hstep : ingestFile dl sb csId db u =
            { db with
              nextId := db.nextId + 1
              files := db.files ++
                [{ id := "row" ++ toString db.nextId
                   case_study_id := csId
                   request_id := res.request_id
                   file_url := u
                   markdown := none
                   metadata := some (.submitResponse res)
                   status := "processing"
                   error := none }] } := by
          simp [ingestFile, hd, hs, freshId]
        rw [hstep]
        obtain ⟨suffix, h1, h2, h3, h4, h5, h6, h7⟩ :=
          ih { db with
                nextId := db.nextId + 1
                files := db.files ++
                  [{ id := "row" ++ toString db.nextId
                     case_study_id := csId
                     request_id := res.request_id
                     file_url := u
                     markdown := none
                     metadata := some (.submitResponse res)
                     status := "processing"
                     error := none }] }
        refine ⟨{ id := "row" ++ toString db.nextId
                  case_study_id := csId
                  request_id := res.request_id
                  file_url := u
                  markdown := none
                  metadata := some (.submitResponse res)
                  status := "processing"
                  error := none } :: suffix, ?_, h2, h3, h4, ?_, ?_, ?_⟩
        · rw [h1]
          simp
        · rw [List.length_cons, h5, List.countP_cons, hok]
          simp
        · intro f hf
          rcases List.mem_cons.mp hf with rfl | hf
          · exact ⟨rfl, rfl⟩
          · exact h6 f hf
        · intro url hmem hsub
          rcases List.mem_cons.mp hmem with rfl | hmem
          · exact ⟨_, List.mem_cons_self _ _, rfl, rfl, rfl⟩
          · obtain ⟨f, hfs, hfp⟩ := h7 url hmem hsub
            exact ⟨f, List.mem_cons_of_mem _ hfs, hfp⟩

/-! ## Claims -/

/-- C1: a webhook POST whose `webhook_secret` is absent or differs from the
configured secret is answered with status 401 and leaves the database —
every File and Image row in particular — exactly as it was. -/
theorem webhook_secret_mismatch_401 (cfg : Option String) (b : WebhookBody)
    (fo : FetchOutcome) (up : String → Bool) (db : DB)
    (h : b.webhook_secret = none ∨ b.webhook_secret ≠ cfg) :
    POST cfg b fo up db =
      ({ status := 401, body := .errBody "Invalid webhook secret" }, db) := by
  have hsec : secretOk cfg b = false := by
    rcases h with h | h
    · simp [secretOk, h, truthy]
    · have : (b.webhook_secret == cfg) = false := by
        simp [h]
      simp [secretOk, this]
  have hv := validateWebhook_secret_error cfg b hsec
  have hcl : classifyStatus "Invalid webhook secret" = 401 := by decide
  simp [POST, runWebhook, hv, hcl]

/-- C1 witness: a request carrying the wrong secret gets a 401 and an
unchanged database. -/
theorem webhook_secret_mismatch_401_check :
    POST (some "s") { webhook_secret := some "x" } (.notOk "n")
        (fun _ => true) {} =
      ({ status := 401, body := .errBody "Invalid webhook secret" }, {}) :=
  webhook_secret_mismatch_401 (some "s") { webhook_secret := some "x" }
    (.notOk "n") (fun _ => true) {} (Or.inr (by decide))

/-- C9: every extraction submission sends the multipart form holding the
file blob plus exactly the seven fixed options, and fails when the response
is not ok or its success flag is false. -/
theorem processFileWithMarker_contract (file : FileBlob) (so : SubmitOutcome) :
    (processFileWithMarker so file).fst =
      [("file", .fileEntry file),
       ("langs", .str "English"),
       ("force_ocr", .str "false"),
       ("paginate", .str "false"),
       ("output_format", .str "markdown"),
       ("use_llm", .str "false"),
       ("strip_existing_ocr", .str "false"),
       ("disable_image_extraction", .str "false")]
    ∧ (∀ st, so = .notOk st →
        (processFileWithMarker so file).snd = .error ("Marker API error: " ++ st))
    ∧ (∀ r, so = .ok r → r.success = false →
        (processFileWithMarker so file).snd = .error ("Marker API error: " ++ r.error))
    ∧ (∀ r, so = .ok r → r.success = true →
        (processFileWithMarker so file).snd = .ok r) := by
  refine ⟨rfl, ?_, ?_, ?_⟩
  · rintro st rfl
    rfl
  · rintro r rfl hs
    simp [processFileWithMarker, hs]
  · rintro r rfl hs
    simp [processFileWithMarker, hs]

/-- C9 witness: the contract applied to a concrete failing submission. -/
theorem processFileWithMarker_contract_check :
    (processFileWithMarker (.ok ⟨"rq", false, "bad"⟩) ⟨"doc.pdf", "bytes"⟩).snd =
      .error "Marker API error: bad" :=
  (processFileWithMarker_contract ⟨"doc.pdf", "bytes"⟩
    (.ok ⟨"rq", false, "bad"⟩)).2.2.1 ⟨"rq", false, "bad"⟩ rfl rfl

/-- C10: `getCaseStudyById` ignores the caller identity — two calls under
different (or absent) authentication agree, and any existing id yields the
full nested case study — while every other server action rejects an
unauthenticated caller. -/
theorem getCaseStudyById_unauthenticated_access (a1 a2 : Option String)
    (id : String) (db : DB) (cs : CaseStudyRow) (inp : CreateCaseStudyInput)
    (dl : String → Except String FileBlob) (sb : String → SubmitOutcome)
    (c : CaseStudyData) (g : Except String String) (fc : String) :
    getCaseStudyById a1 id db = getCaseStudyById a2 id db
    ∧ (db.caseStudies.find? (fun x => x.id == id) = some cs →
        ∃ out, getCaseStudyById a1 id db = .ok out ∧ out.caseStudy = cs)
    ∧ getAllCaseStudies none db = .error "User not authenticated"
    ∧ (createCaseStudy none inp dl sb db).fst = .error "User not authenticated"
    ∧ (saveCaseStudy none id c db).fst = .error "User not authenticated"
    ∧ (deleteCaseStudy none id db).fst = .error "User not authenticated"
    ∧ getCaseStudySummary none id db = .error "User not authenticated"
    ∧ (createOnePager none g fc id db).fst = .error "User not authenticated" := by
  refine ⟨rfl, ?_, rfl, rfl, rfl, rfl, rfl, rfl⟩
  intro h
  unfold getCaseStudyById
  rw [h]
  by_cases hf : (db.files.filter (fun f => f.case_study_id == id)).isEmpty
  · simp only [hf, if_true, ite_true]
    exact ⟨_, rfl, rfl⟩
  · simp only [hf, if_false, ite_false]
    exact ⟨_, rfl, rfl⟩

/-- C10 witness: concrete lookups under two different callers agree, and
the lookup succeeds for the existing id whoever calls. -/
theorem getCaseStudyById_unauthenticated_access_check :
    getCaseStudyById (some "alice") "c1"
        { caseStudies := [⟨"c1", "owner", "t", none, none, none⟩] } =
      getCaseStudyById none "c1"
        { caseStudies := [⟨"c1", "owner", "t", none, none, none⟩] }
    ∧ exceptOk (getCaseStudyById (some "alice") "c1"
        { caseStudies := [⟨"c1", "owner", "t", none, none, none⟩] }) = true := by
  have h := getCaseStudyById_unauthenticated_access (some "alice") none "c1"
    { caseStudies := [⟨"c1", "owner", "t", none, none, none⟩] }
    ⟨"c1", "owner", "t", none, none, none⟩
    ⟨"t", none, none, []⟩ (fun _ => .error "e") (fun _ => .notOk "e")
    {} (.error "e") ""
  refine ⟨h.1, ?_⟩
  obtain ⟨out, h1, _⟩ := h.2.1 (by decide)
  rw [h1]
  rfl

/-- C3 counterexample: replaying the identical payload (one embedded image)
against the same environment does not insert one additional Image row per
image — when the storage uploads fail (as they do against a store that
retains the first upload, since the handler uploads with upsert disabled to
the same deterministic path), the second run adds no Image row at all,
while both runs still answer 200 and the File row update stays a no-op. -/
theorem webhook_replay_counterexample :
    (let cfg : Option String := some "sek"
     let b : WebhookBody :=
       { request_id := some "r1", request_check_url := some "u",
         webhook_secret := some "sek" }
     let fo : FetchOutcome :=
       .ok { markdown := "md", images := [("img.jpg", "QUJD")] }
     let up : String → Bool := fun _ => false
     let db0 : DB :=
       { caseStudies := [⟨"c1", "u1", "t", none, none, none⟩],
         files := [⟨"f1", "c1", "r1", "url", none, none, "processing", none⟩] }
     let run1 := POST cfg b fo up db0
     let run2 := POST cfg b fo up run1.snd
     run1.fst.status = 200 ∧ run2.fst.status = 200 ∧
       run2.snd.files = run1.snd.files ∧ run2.snd.images = run1.snd.images ∧
       run1.snd.images.length = 0) := by
  decide

/-- C4 counterexample: with a valid secret and fields, a fetched successful
result carrying one image, and a matching File row whose parent case study
is missing, the handler answers 500 — yet the File row update has been
committed: the database differs from its pre-request state. -/
theorem webhook_partial_commit_counterexample :
    ((POST (some "sek")
        { request_id := some "r1", request_check_url := some "u",
          webhook_secret := some "sek" }
        (.ok { markdown := "md", images := [("img.jpg", "QUJD")] })
        (fun _ => true)
        { files := [⟨"f1", "c1", "r1", "url", none, none, "processing", none⟩] }).fst.status
      = 500)
    ∧ (POST (some "sek")
        { request_id := some "r1", request_check_url := some "u",
          webhook_secret := some "sek" }
        (.ok { markdown := "md", images := [("img.jpg", "QUJD")] })
        (fun _ => true)
        { files := [⟨"f1", "c1", "r1", "url", none, none, "processing", none⟩] }).snd.files
      ≠ [⟨"f1", "c1", "r1", "url", none, none, "processing", none⟩] := by
  constructor
  · decide
  · decide

/-- C5 counterexample: the webhook writes the fetched status verbatim, so a
successful result that reports status `processing` drives a File row that
was already `complete` back to `processing`. -/
theorem status_regression_counterexample :
    (POST (some "sek")
      { request_id := some "r1", request_check_url := some "u",
        webhook_secret := some "sek" }
      (.ok { markdown := "md", status := "processing" })
      (fun _ => true)
      { files := [⟨"f1", "c1", "r1", "url", none, none, "complete", none⟩] }).snd.files.map
        FileRow.status = ["processing"] := by
  decide

/-- C7 counterexample: deleting a case study one of whose files still has
an Image row does not cascade at all — the delete statement violates the
un-cascaded Image→File foreign key, so `deleteCaseStudy` throws and the
File, Summary, and Image rows all remain. -/
theorem delete_orphan_counterexample :
    deleteCaseStudy (some "u1") "c1"
      { caseStudies := [⟨"c1", "u1", "t", none, none, none⟩],
        files := [⟨"f1", "c1", "r1", "url", none, none, "complete", none⟩],
        images := [⟨"i1", "f1", "iurl"⟩],
        summaries := [⟨"s1", "c1", "sum"⟩] } =
    (.error "Failed to delete case study",
     { caseStudies := [⟨"c1", "u1", "t", none, none, none⟩],
       files := [⟨"f1", "c1", "r1", "url", none, none, "complete", none⟩],
       images := [⟨"i1", "f1", "iurl"⟩],
       summaries := [⟨"s1", "c1", "sum"⟩] }) := by
  rfl

/-- C8 counterexample: the catch block picks the status by substring match
on the error message, so a fetch failure whose statusText embeds the
phrase `Invalid webhook secret` is answered 401, not 500 as the contract
states for fetch failures. -/
theorem webhook_contract_counterexample :
    ((POST (some "sek")
        { request_id := some "r1", request_check_url := some "u",
          webhook_secret := some "sek" }
        (.notOk "Invalid webhook secret") (fun _ => true) {}).fst.status = 401)
    ∧ ((POST (some "sek")
        { request_id := some "r1", request_check_url := some "u",
          webhook_secret := some "sek" }
        (.notOk "Invalid webhook secret") (fun _ => true) {}).fst.status ≠ 500) := by
  constructor
  · decide
  · decide

/-- C2: `createCaseStudy` with an authenticated user inserts exactly one
CaseStudy row (never rolled back), attempts the download-and-submit task of
every URL independently, inserts a `processing` File row per URL whose task
succeeds — a failing URL does not prevent the rows of the others — and
returns the new CaseStudy. -/
theorem createCaseStudy_batch_isolation (uid : String)
    (inp : CreateCaseStudyInput) (dl : String → Except String FileBlob)
    (sb : String → SubmitOutcome) (db : DB) :
    ∃ cs suffix,
      (createCaseStudy (some uid) inp dl sb db).fst = .ok cs ∧
      cs.user_id = uid ∧ cs.title = inp.title ∧
      (createCaseStudy (some uid) inp dl sb db).snd.caseStudies
        = db.caseStudies ++ [cs] ∧
      (createCaseStudy (some uid) inp dl sb db).snd.files = db.files ++ suffix ∧
      (createCaseStudy (some uid) inp dl sb db).snd.images = db.images ∧
      (createCaseStudy (some uid) inp dl sb db).snd.summaries = db.summaries ∧
      suffix.length = inp.fileUrls.countP (submissionOk dl sb) ∧
      (∀ f ∈ suffix, f.case_study_id = cs.id ∧ f.status = "processing") ∧
      (∀ url ∈ inp.fileUrls, submissionOk dl sb url = true →
        ∃ f ∈ suffix, f.file_url = url ∧ f.case_study_id = cs.id ∧
          f.status = "processing") := by
  obtain ⟨suffix, h1, h2, h3, h4, h5, h6, h7⟩ :=
    ingestFold_spec dl sb ("row" ++ toString db.nextId) inp.fileUrls
      { db with
        nextId := db.nextId + 1
        caseStudies := db.caseStudies ++
          [{ id := "row" ++ toString db.nextId, user_id := uid,
             title := inp.title, description := none, client := inp.client,
             industry := inp.industry }] }
  exact ⟨{ id := "row" ++ toString db.nextId, user_id := uid,
           title := inp.title, description := none, client := inp.client,
           industry := inp.industry },
         suffix, rfl, rfl, rfl, h2, h1, h3, h4, h5, h6, h7⟩

/-- C2 witness: with two URLs of which the first download fails, exactly
one File row is still inserted for the succeeding URL. -/
theorem createCaseStudy_batch_isolation_check :
    (createCaseStudy (some "u") ⟨"t", none, none, ["bad", "good"]⟩
        (fun url => if url == "good" then .ok ⟨"f", "x"⟩
                    else .error "download failed")
        (fun _ => .ok ⟨"rq", true, ""⟩) {}).snd.files.length = 1 := by
  obtain ⟨cs, suffix, h1, h2, h3, h4, h5, h6, h7, h8, h9, h10⟩ :=
    createCaseStudy_batch_isolation "u" ⟨"t", none, none, ["bad", "good"]⟩
      (fun url => if url == "good" then .ok ⟨"f", "x"⟩
                  else .error "download failed")
      (fun _ => .ok ⟨"rq", true, ""⟩) {}
  simp only [h5, List.length_append, h8]
  decide

/-- Re-running the update against a state holding the already-updated file
list succeeds again and leaves the file list unchanged. -/
theorem update_twice (rid : String) (r : MarkerResponse) (db : DB)
    (res : FileRow × DB) (h : updateCaseStudyFile rid r db = .ok res) :
    ∀ dbx : DB, dbx.files = res.snd.files →
      ∃ res2, updateCaseStudyFile rid r dbx = .ok res2
        ∧ res2.snd.files = res.snd.files := by
  intro dbx hdx
  obtain ⟨hfiles, _, _, _, _, hmem⟩ := updateCaseStudyFile_ok_inv rid r db res h
  have hupd2 : (dbx.files.map fun f =>
      if f.request_id == rid then appliedResult r f else f) = res.snd.files := by
    rw [hdx, hfiles, update_map_idem]
  have hne : ((dbx.files.map fun f =>
      if f.request_id == rid then appliedResult r f else f).filter
        (fun f => f.request_id == rid)) ≠ [] := by
    rw [hupd2, hfiles, filter_map_update]
    exact List.ne_nil_of_mem hmem
  simp only [updateCaseStudyFile]
  cases hm : ((dbx.files.map fun f =>
      if f.request_id == rid then appliedResult r f else f).filter
        (fun f => f.request_id == rid)) with
  | nil => exact absurd hm hne
  | cons a t =>
    exact ⟨_, rfl, hupd2⟩

/-- C4 amended: the steps before the File update fail without touching the
database, but the File-row update commits on its own: a later failure of
image processing (the parent lookup) is answered 500 while the update stays
committed — there is no cross-statement rollback. -/
theorem webhook_commit_granularity (cfg : Option String) (b : WebhookBody)
    (fo : FetchOutcome) (up : String → Bool) (db : DB) :
    (∀ e, validateWebhook cfg b = .error e → (POST cfg b fo up db).snd = db)
    ∧ (∀ p e, validateWebhook cfg b = .ok p → fetchMarkerResults fo = .error e →
        (POST cfg b fo up db).snd = db)
    ∧ (∀ p r e, validateWebhook cfg b = .ok p → fetchMarkerResults fo = .ok r →
        updateCaseStudyFile p.fst r db = .error e →
        (POST cfg b fo up db).snd = db)
    ∧ (∀ p r res e, validateWebhook cfg b = .ok p →
        fetchMarkerResults fo = .ok r →
        updateCaseStudyFile p.fst r db = .ok res →
        processImages up res.fst r res.snd = .error e →
        (POST cfg b fo up db).fst.status = 500
        ∧ (POST cfg b fo up db).snd = res.snd
        ∧ res.snd.files = (db.files.map fun f =>
            if f.request_id == p.fst then appliedResult r f else f)) := by
  refine ⟨?_, ?_, ?_, ?_⟩
  · intro e hv
    simp [POST, runWebhook, hv]
  · intro p e hv hf
    simp [POST, runWebhook, hv, hf]
  · intro p r e hv hf hu
    simp [POST, runWebhook, hv, hf, hu]
  · intro p r res e hv hf hu hp
    obtain ⟨he, _⟩ := processImages_error_inv up res.fst r res.snd e hp
    subst he
    have h500 : classifyStatus "Case study not found" = 500 := by decide
    refine ⟨?_, ?_, (updateCaseStudyFile_ok_inv p.fst r db res hu).1⟩
    · simp [POST, runWebhook, hv, hf, hu, hp, h500]
    · simp [POST, runWebhook, hv, hf, hu, hp]

/-- C4 witness: a concrete run whose parent lookup fails is answered 500
while the File update remains committed. -/
theorem webhook_commit_granularity_check :
    (POST (some "sek")
      { request_id := some "r1", request_check_url := some "u",
        webhook_secret := some "sek" }
      (.ok { markdown := "md", images := [("img.jpg", "QUJD")] })
      (fun _ => true)
      { files := [⟨"f1", "c1", "r1", "url", none, none, "processing", none⟩] }).fst.status
    = 500 :=
  ((webhook_commit_granularity (some "sek")
      { request_id := some "r1", request_check_url := some "u",
        webhook_secret := some "sek" }
      (.ok { markdown := "md", images := [("img.jpg", "QUJD")] })
      (fun _ => true)
      { files := [⟨"f1", "c1", "r1", "url", none, none, "processing", none⟩] }).2.2.2
    ("r1", "u") { markdown := "md", images := [("img.jpg", "QUJD")] }
    (⟨"f1", "c1", "r1", "url", some "md", some (.metadataRecord []),
       "complete", some ""⟩,
     { files := [⟨"f1", "c1", "r1", "url", some "md",
        some (.metadataRecord []), "complete", some ""⟩] })
    "Case study not found" rfl rfl rfl rfl).1

/-- C8 amended: the response contract holds with one proviso — the catch
block chooses the status by substring match on the error message, so the
500-on-other-failures case requires the failure message not to contain the
401/400 sentinel phrases (an externally supplied statusText or result error
embedding them is misclassified). -/
theorem webhook_response_contract (cfg : Option String) (b : WebhookBody)
    (fo : FetchOutcome) (up : String → Bool) (db : DB) :
    (secretOk cfg b = false →
      (POST cfg b fo up db).fst =
        { status := 401, body := .errBody "Invalid webhook secret" })
    ∧ (secretOk cfg b = true → fieldsOk b = false →
      (POST cfg b fo up db).fst =
        { status := 400, body := .errBody "Missing required fields" })
    ∧ ((runWebhook cfg b fo up db).fst = .ok () →
      (POST cfg b fo up db).fst =
        { status := 200, body := .message "Webhook processed successfully" })
    ∧ (∀ e, (runWebhook cfg b fo up db).fst = .error e →
        containsSub e "Invalid webhook secret" = false →
        containsSub e "Missing required fields" = false →
        (POST cfg b fo up db).fst = { status := 500, body := .errBody e }) := by
  refine ⟨?_, ?_, ?_, ?_⟩
  · intro hs
    have hv := validateWebhook_secret_error cfg b hs
    have hc : classifyStatus "Invalid webhook secret" = 401 := by decide
    simp [POST, runWebhook, hv, hc]
  · intro hs hf
    have hv := validateWebhook_fields_error cfg b hs hf
    have hc : classifyStatus "Missing required fields" = 400 := by decide
    simp [POST, runWebhook, hv, hc]
  · intro h
    rcases hw : runWebhook cfg b fo up db with ⟨st, db2⟩
    rw [hw] at h
    simp only at h
    subst h
    simp [POST, hw]
  · intro e h h1 h2
    rcases hw : runWebhook cfg b fo up db with ⟨st, db2⟩
    rw [hw] at h
    simp only at h
    subst h
    have hc : classifyStatus e = 500 := by
      simp [classifyStatus, h1, h2]
    simp [POST, hw, hc]

/-- C8 witness: a fully successful concrete run is answered 200 with the
message body. -/
theorem webhook_response_contract_check :
    (POST (some "sek")
      { request_id := some "r1", request_check_url := some "u",
        webhook_secret := some "sek" }
      (.ok { markdown := "md" }) (fun _ => true)
      { files := [⟨"f1", "c1", "r1", "url", none, none, "processing", none⟩] }).fst =
    { status := 200, body := .message "Webhook processed successfully" } :=
  (webhook_response_contract (some "sek")
      { request_id := some "r1", request_check_url := some "u",
        webhook_secret := some "sek" }
      (.ok { markdown := "md" }) (fun _ => true)
      { files := [⟨"f1", "c1", "r1", "url", none, none, "processing", none⟩] }).2.2.1
    rfl

/-- C7 amended: deleting a case study cascades to its File and Summary rows
only when none of its files is referenced by an Image row; otherwise the
un-cascaded Image→File foreign key makes the delete fail wholesale —
`deleteCaseStudy` throws and the database is unchanged, so orphaned Image
rows are never produced. -/
theorem deleteCaseStudy_cascade_behavior (uid id : String) (db : DB) :
    ((db.images.any fun im =>
        (db.files.filter fun f => f.case_study_id == id).any
          fun f => f.id == im.file_id) = false →
      deleteCaseStudy (some uid) id db =
        (.ok true,
         { db with
           caseStudies := db.caseStudies.filter fun c => !(c.id == id)
           files := db.files.filter fun f => !(f.case_study_id == id)
           summaries := db.summaries.filter fun s => !(s.case_study_id == id) }))
    ∧ ((db.images.any fun im =>
        (db.files.filter fun f => f.case_study_id == id).any
          fun f => f.id == im.file_id) = true →
      deleteCaseStudy (some uid) id db =
        (.error "Failed to delete case study", db)) := by
  constructor
  · intro h
    have hc : cascadeDeleteCaseStudy id db = .ok
        { db with
          caseStudies := db.caseStudies.filter fun c => !(c.id == id)
          files := db.files.filter fun f => !(f.case_study_id == id)
          summaries := db.summaries.filter fun s => !(s.case_study_id == id) } := by
      simp only [cascadeDeleteCaseStudy]
      rw [if_neg (by rw [h]; simp)]
    simp [deleteCaseStudy, hc]
  · intro h
    have hc : cascadeDeleteCaseStudy id db = .error "foreign key violation" := by
      simp only [cascadeDeleteCaseStudy]
      rw [if_pos h]
    simp [deleteCaseStudy, hc]

/-- C7 witness: with no Image rows, a concrete delete cascades the File and
Summary rows away. -/
theorem deleteCaseStudy_cascade_behavior_check :
    deleteCaseStudy (some "u1") "c1"
      { caseStudies := [⟨"c1", "u1", "t", none, none, none⟩],
        files := [⟨"f1", "c1", "r1", "url", none, none, "complete", none⟩],
        summaries := [⟨"s1", "c1", "sum"⟩] } =
    (.ok true, {}) :=
  (deleteCaseStudy_cascade_behavior "u1" "c1"
      { caseStudies := [⟨"c1", "u1", "t", none, none, none⟩],
        files := [⟨"f1", "c1", "r1", "url", none, none, "complete", none⟩],
        summaries := [⟨"s1", "c1", "sum"⟩] }).1 (by decide)

/-- C5 amended: only ingestion inserts (fresh rows, always `processing`)
and the webhook update write `status`, and the webhook writes the fetched
result status verbatim; hence, provided every successful fetched result
reports status `complete`, a webhook run leaves every File row either
untouched or with status `complete` — no row regresses from `complete` to
`processing`. -/
theorem status_write_discipline (cfg : Option String) (b : WebhookBody)
    (fo : FetchOutcome) (up : String → Bool) (db : DB) (uid : String)
    (inp : CreateCaseStudyInput) (dl : String → Except String FileBlob)
    (sb : String → SubmitOutcome) :
    ((∀ r, fo = .ok r → r.status = "complete") →
      ∀ f2 ∈ (POST cfg b fo up db).snd.files,
        f2 ∈ db.files ∨ f2.status = "complete")
    ∧ (∃ suffix, (createCaseStudy (some uid) inp dl sb db).snd.files
        = db.files ++ suffix ∧ ∀ f ∈ suffix, f.status = "processing") := by
  constructor
  · intro hgood f2 hf2
    cases hv : validateWebhook cfg b with
    | error e =>
      simp only [POST, runWebhook, hv] at hf2
      exact Or.inl hf2
    | ok p =>
      cases hf : fetchMarkerResults fo with
      | error e =>
        simp only [POST, runWebhook, hv, hf] at hf2
        exact Or.inl hf2
      | ok r =>
        obtain ⟨hfo, _⟩ := fetchMarkerResults_ok_inv fo r hf
        have hst : r.status = "complete" := hgood r hfo
        cases hu : updateCaseStudyFile p.fst r db with
        | error e =>
          simp only [POST, runWebhook, hv, hf, hu] at hf2
          exact Or.inl hf2
        | ok res =>
          obtain ⟨hfiles, _, _, _, _, _⟩ :=
            updateCaseStudyFile_ok_inv p.fst r db res hu
          have hPfiles : (POST cfg b fo up db).snd.files = res.snd.files := by
            cases hp : processImages up res.fst r res.snd with
            | error e2 => simp [POST, runWebhook, hv, hf, hu, hp]
            | ok db2 =>
              obtain ⟨hz, _, _⟩ :=
                processImages_ok_tables up res.fst r res.snd db2 hp
              simp [POST, runWebhook, hv, hf, hu, hp, hz]
          rw [hPfiles, hfiles] at hf2
          rcases List.mem_map.mp hf2 with ⟨f, hfm, hfe⟩
          by_cases hr : (f.request_id == p.fst) = true
          · rw [if_pos hr] at hfe
            right
            rw [← hfe]
            simpa [appliedResult] using hst
          · rw [if_neg hr] at hfe
            exact Or.inl (hfe ▸ hfm)
  · obtain ⟨suffix, h1, _, _, _, _, h6, _⟩ :=
      ingestFold_spec dl sb ("row" ++ toString db.nextId) inp.fileUrls
        { db with
          nextId := db.nextId + 1
          caseStudies := db.caseStudies ++
            [{ id := "row" ++ toString db.nextId, user_id := uid,
               title := inp.title, description := none, client := inp.client,
               industry := inp.industry }] }
    exact ⟨suffix, h1, fun f hf => (h6 f hf).2⟩

/-- C5 witness: after a concrete successful webhook run, the updated row is
complete (and was not among the pre-run rows). -/
theorem status_write_discipline_check :
    (⟨"f1", "c1", "r1", "url", some "md", some (.metadataRecord []),
       "complete", some ""⟩ : FileRow) ∈
      ({ files := [⟨"f1", "c1", "r1", "url", none, none, "processing", none⟩] } : DB).files
    ∨ (⟨"f1", "c1", "r1", "url", some "md", some (.metadataRecord []),
       "complete", some ""⟩ : FileRow).status = "complete" :=
  (status_write_discipline (some "sek")
      { request_id := some "r1", request_check_url := some "u",
        webhook_secret := some "sek" }
      (.ok { markdown := "md" }) (fun _ => true)
      { files := [⟨"f1", "c1", "r1", "url", none, none, "processing", none⟩] }
      "u" ⟨"t", none, none, []⟩ (fun _ => .error "e")
      (fun _ => .notOk "e")).1
    (fun r h => by cases h; rfl)
    ⟨"f1", "c1", "r1", "url", some "md", some (.metadataRecord []),
      "complete", some ""⟩
    (by decide)

/-- C6: when a well-formed result carrying two embedded images reaches a
matching File row with an existing parent case study and exactly one of the
two uploads fails, the handler still answers 200 and persists exactly one
Image row: each upload failure is skipped per item. -/
theorem webhook_image_partial_failure (cfg : Option String) (b : WebhookBody)
    (fo : FetchOutcome) (up : String → Bool) (db : DB) (r : MarkerResponse)
    (f0 : FileRow) (cs : CaseStudyRow) (rid curl fn1 bs1 fn2 bs2 : String)
    (hv : validateWebhook cfg b = .ok (rid, curl))
    (hf : fetchMarkerResults fo = .ok r)
    (him : r.images = [(fn1, bs1), (fn2, bs2)])
    (hrow : db.files.filter (fun f => f.request_id == rid) = [f0])
    (hcs : db.caseStudies.find? (fun c => c.id == f0.case_study_id) = some cs)
    (hup : up (imagePath cs.user_id f0.id fn1)
      ≠ up (imagePath cs.user_id f0.id fn2)) :
    (POST cfg b fo up db).fst.status = 200 ∧
    (POST cfg b fo up db).snd.images.length = db.images.length + 1 := by
  have hu := updateCaseStudyFile_single rid r db f0 hrow
  have hne : r.images.isEmpty = false := by rw [him]; rfl
  have hfind2 : db.caseStudies.find?
      (fun c => c.id == (appliedResult r f0).case_study_id) = some cs := hcs
  have hproc : processImages up (appliedResult r f0) r
      { db with files := db.files.map fun f =>
          if f.request_id == rid then appliedResult r f else f } =
      .ok (r.images.foldl (imgStep up cs.user_id f0.id)
        { db with files := db.files.map fun f =>
            if f.request_id == rid then appliedResult r f else f }) := by
    simp only [processImages]
    rw [if_neg (by rw [hne]; simp), hfind2]
    rfl
  have hlen : ∀ dbx : DB,
      (r.images.foldl (imgStep up cs.user_id f0.id) dbx).images.length
        = dbx.images.length + 1 := by
    intro dbx
    rw [him]
    simp only [List.foldl_cons, List.foldl_nil]
    cases h1 : up (imagePath cs.user_id f0.id fn1) with
    | true =>
      cases h2 : up (imagePath cs.user_id f0.id fn2) with
      | true => exact absurd (h1.trans h2.symm) hup
      | false => simp [imgStep, h1, h2, freshId]
    | false =>
      cases h2 : up (imagePath cs.user_id f0.id fn2) with
      | false => exact absurd (h1.trans h2.symm) hup
      | true => simp [imgStep, h1, h2, freshId]
  constructor
  · simp only [POST, runWebhook, hv, hf, hu, hproc]
  · simp only [POST, runWebhook, hv, hf, hu, hproc]
    exact hlen { db with files := db.files.map fun f =>
      if f.request_id == rid then appliedResult r f else f }

/-- C6 witness: a concrete two-image result where exactly the second upload
fails yields a 200 response and exactly one new Image row. -/
theorem webhook_image_partial_failure_check :
    (POST (some "sek")
      { request_id := some "r1", request_check_url := some "u",
        webhook_secret := some "sek" }
      (.ok { markdown := "md", images := [("a.jpg", "x"), ("b.jpg", "y")] })
      (fun p => p == "u1/case_studies/f1/images/a.jpg")
      { caseStudies := [⟨"c1", "u1", "t", none, none, none⟩],
        files := [⟨"f1", "c1", "r1", "url", none, none, "processing", none⟩] }).fst.status
      = 200
    ∧ (POST (some "sek")
      { request_id := some "r1", request_check_url := some "u",
        webhook_secret := some "sek" }
      (.ok { markdown := "md", images := [("a.jpg", "x"), ("b.jpg", "y")] })
      (fun p => p == "u1/case_studies/f1/images/a.jpg")
      { caseStudies := [⟨"c1", "u1", "t", none, none, none⟩],
        files := [⟨"f1", "c1", "r1", "url", none, none, "processing", none⟩] }).snd.images.length
      = 1 :=
  webhook_image_partial_failure (some "sek")
    { request_id := some "r1", request_check_url := some "u",
      webhook_secret := some "sek" }
    (.ok { markdown := "md", images := [("a.jpg", "x"), ("b.jpg", "y")] })
    (fun p => p == "u1/case_studies/f1/images/a.jpg")
    { caseStudies := [⟨"c1", "u1", "t", none, none, none⟩],
      files := [⟨"f1", "c1", "r1", "url", none, none, "processing", none⟩] }
    { markdown := "md", images := [("a.jpg", "x"), ("b.jpg", "y")] }
    ⟨"f1", "c1", "r1", "url", none, none, "processing", none⟩
    ⟨"c1", "u1", "t", none, none, none⟩
    "r1" "u" "a.jpg" "x" "b.jpg" "y"
    rfl rfl rfl rfl rfl (by decide)

/-- C3 amended: replaying the identical webhook payload is idempotent for
the File rows (the second run rewrites the same values, a no-op), while
image insertion has no idempotency guard: each run appends exactly one
Image row per image whose storage upload succeeds (duplicating the file id
and public URL), and no row for an image whose upload fails. -/
theorem webhook_replay_amended :
    (∀ (cfg : Option String) (b : WebhookBody) (fo : FetchOutcome)
        (up : String → Bool) (db : DB),
      (POST cfg b fo up (POST cfg b fo up db).snd).snd.files
        = (POST cfg b fo up db).snd.files)
    ∧ (∀ (up : String → Bool) (csf : FileRow) (r : MarkerResponse)
        (db db2 : DB) (cs : CaseStudyRow),
        db.caseStudies.find? (fun c => c.id == csf.case_study_id) = some cs →
        processImages up csf r db = .ok db2 →
        ∃ suffix, db2.images = db.images ++ suffix ∧
          suffix.length = r.images.countP
            (fun e => up (imagePath cs.user_id csf.id e.fst)) ∧
          ∀ im ∈ suffix, im.file_id = csf.id ∧
            ∃ e ∈ r.images, up (imagePath cs.user_id csf.id e.fst) = true ∧
              im.image_url = mkPublicUrl (imagePath cs.user_id csf.id e.fst)) := by
  constructor
  · intro cfg b fo up db
    cases hv : validateWebhook cfg b with
    | error e => simp only [POST, runWebhook, hv]
    | ok p =>
      cases hf : fetchMarkerResults fo with
      | error e => simp only [POST, runWebhook, hv, hf]
      | ok r =>
        cases hu : updateCaseStudyFile p.fst r db with
        | error e => simp only [POST, runWebhook, hv, hf, hu]
        | ok res =>
          have hPfiles : (POST cfg b fo up db).snd.files = res.snd.files := by
            cases hp : processImages up res.fst r res.snd with
            | error e2 => simp only [POST, runWebhook, hv, hf, hu, hp]
            | ok dbz =>
              obtain ⟨hz, _, _⟩ :=
                processImages_ok_tables up res.fst r res.snd dbz hp
              simp only [POST, runWebhook, hv, hf, hu, hp]
              exact hz
          obtain ⟨res2, hu2, hres2⟩ :=
            update_twice p.fst r db res hu (POST cfg b fo up db).snd hPfiles
          rw [hPfiles]
          generalize hF : (POST cfg b fo up db).snd = F at hu2 ⊢
          cases hp2 : processImages up res2.fst r res2.snd with
          | error e2 =>
            simp only [POST, runWebhook, hv, hf, hu2, hp2]
            exact hres2
          | ok dbz =>
            obtain ⟨hz, _, _⟩ :=
              processImages_ok_tables up res2.fst r res2.snd dbz hp2
            simp only [POST, runWebhook, hv, hf, hu2, hp2]
            exact hz.trans hres2
  · intro up csf r db db2 cs hcs hok
    exact processImages_ok_inv up csf r db db2 cs hcs hok

/-- C3 witness: a concrete replay leaves the file list fixed, and a
concrete image-processing run with a succeeding upload appends exactly one
Image row. -/
theorem webhook_replay_amended_check :
    ((POST (some "sek")
        { request_id := some "r1", request_check_url := some "u",
          webhook_secret := some "sek" }
        (.ok { markdown := "md" }) (fun _ => false)
        (POST (some "sek")
          { request_id := some "r1", request_check_url := some "u",
            webhook_secret := some "sek" }
          (.ok { markdown := "md" }) (fun _ => false)
          { files := [⟨"f1", "c1", "r1", "url", none, none,
            "processing", none⟩] }).snd).snd.files
      = (POST (some "sek")
          { request_id := some "r1", request_check_url := some "u",
            webhook_secret := some "sek" }
          (.ok { markdown := "md" }) (fun _ => false)
          { files := [⟨"f1", "c1", "r1", "url", none, none,
            "processing", none⟩] }).snd.files)
    ∧ ({ caseStudies := [⟨"c1", "u1", "t", none, none, none⟩],
         images := [⟨"row0", "f1",
           mkPublicUrl (imagePath "u1" "f1" "a.jpg")⟩],
         nextId := 1 } : DB).images.length = 1 := by
  constructor
  · exact webhook_replay_amended.1 (some "sek")
      { request_id := some "r1", request_check_url := some "u",
        webhook_secret := some "sek" }
      (.ok { markdown := "md" }) (fun _ => false)
      { files := [⟨"f1", "c1", "r1", "url", none, none, "processing", none⟩] }
  · obtain ⟨suffix, h1, h5, _⟩ := webhook_replay_amended.2 (fun _ => true)
      ⟨"f1", "c1", "r1", "url", none, none, "complete", none⟩
      { images := [("a.jpg", "zz")] }
      { caseStudies := [⟨"c1", "u1", "t", none, none, none⟩] }
      ({ caseStudies := [⟨"c1", "u1", "t", none, none, none⟩],
         images := [⟨"row0", "f1",
           mkPublicUrl (imagePath "u1" "f1" "a.jpg")⟩],
         nextId := 1 } : DB)
      ⟨"c1", "u1", "t", none, none, none⟩ rfl rfl
    rw [h1]
    simp only [List.nil_append]
    rw [h5]
    decide

end CaseStudyApp
